import Mathlib

/-!
Verification of the video-sync-system pipeline (Python) against its
natural-language specification, via a shallow embedding in Lean 4.

Bytes are modelled as `Nat` (with explicit `< 256` bounds where they matter),
strings as Lean `String`.  External collaborators (the PyCryptodome AES
primitives, hashlib's sha256/md5, the UTF-8 codec) are modelled as abstract
function parameters gathered in `CryptoPrims`; everything the repository
itself implements (key derivation, base64 handling, PKCS7 padding glue,
checkpoint handling, the orchestrator loop and the remediation drivers) is
translated from the source.
-/

namespace VideoSync

/-! ## URL-safe base64 (models Python `base64.urlsafe_b64encode/_b64decode`)

The encoder is total.  The decoder models `urlsafe_b64decode` in its lenient
(non-strict) mode on the inputs this program feeds it: a string whose
non-`'='` characters are all alphabet characters and precede every `'='`
(lenient `binascii.a2b_base64` ignores excess trailing padding, which is what
makes the decryptor's re-padding with up to four `'='` work). -/

/-- The URL-safe base64 alphabet, as used by `base64.urlsafe_b64encode`. -/
def b64Alphabet : List Char :=
  "ABCDEFGHIJKLMNOPQRSTUVWXYZabcdefghijklmnopqrstuvwxyz0123456789-_".data

/-- Sextet value `n` (assumed `< 64`) to its alphabet character. -/
def b64Char (n : Nat) : Char := b64Alphabet.getD n 'A'

/-- Alphabet character back to its sextet value; `none` off the alphabet. -/
def b64Value (c : Char) : Option Nat :=
  let i := b64Alphabet.indexOf c
  if i < 64 then some i else none

/-- Bytes to sextet values, 3 bytes per 4 sextets, final group shortened
exactly as base64 does. -/
def b64EncVals : List Nat → List Nat
  | b1 :: b2 :: b3 :: rest =>
      b1 / 4 :: (b1 % 4 * 16 + b2 / 16) :: (b2 % 16 * 4 + b3 / 64) :: b3 % 64
        :: b64EncVals rest
  | [b1, b2] => [b1 / 4, b1 % 4 * 16 + b2 / 16, b2 % 16 * 4]
  | [b1] => [b1 / 4, b1 % 4 * 16]
  | [] => []

/-- Sextet values back to bytes; a trailing group of one sextet is a base64
error (`binascii.Error`), modelled as `none`. -/
def b64DecVals : List Nat → Option (List Nat)
  | v1 :: v2 :: v3 :: v4 :: rest =>
      match b64DecVals rest with
      | some tail =>
          some ((v1 * 4 + v2 / 16) :: (v2 % 16 * 16 + v3 / 4)
            :: (v3 % 4 * 64 + v4) :: tail)
      | none => none
  | [v1, v2, v3] => some [v1 * 4 + v2 / 16, v2 % 16 * 16 + v3 / 4]
  | [v1, v2] => some [v1 * 4 + v2 / 16]
  | [_] => none
  | [] => some []

/-- `base64.urlsafe_b64encode(bs).decode('utf-8')`: alphabet characters plus
the standard `'='` padding. -/
def b64EncodeBytes (bs : List Nat) : String :=
  String.mk ((b64EncVals bs).map b64Char
    ++ List.replicate ((3 - bs.length % 3) % 3) '=')

/-- Python `str.rstrip('=')`. -/
def rstripEq (s : String) : String :=
  String.mk ((s.data.reverse.dropWhile (fun c => c = '=')).reverse)

/-- Character-level lenient base64 decode: values of the non-`'='`
characters, then sextet groups to bytes. -/
def b64ValuesOf : List Char → Option (List Nat)
  | [] => some []
  | c :: cs =>
      match b64Value c, b64ValuesOf cs with
      | some v, some vs => some (v :: vs)
      | _, _ => none

/-- `base64.urlsafe_b64decode` (lenient mode) on a character list. -/
def urlsafe_b64decode (cs : List Char) : Option (List Nat) :=
  match b64ValuesOf (cs.filter (fun c => c ≠ '=')) with
  | some vs => b64DecVals vs
  | none => none

/-! ## PKCS7 padding (models `Crypto.Util.Padding.pad/unpad`, block 16) -/

/-- `Crypto.Util.Padding.pad(data, 16)`. -/
def pkcs7Pad (bs : List Nat) : List Nat :=
  let n := 16 - bs.length % 16
  bs ++ List.replicate n n

/-- `Crypto.Util.Padding.unpad(data, 16)`; raises (modelled `none`) on input
whose length is not a block multiple or whose padding bytes are malformed. -/
def pkcs7Unpad (bs : List Nat) : Option (List Nat) :=
  if bs.length % 16 ≠ 0 then none
  else
    match bs.getLast? with
    | none => none
    | some n =>
        if n = 0 ∨ 16 < n ∨ bs.length < n then none
        else if (bs.drop (bs.length - n)).all (fun b => b = n) then
          some (bs.take (bs.length - n))
        else none

/-! ## External crypto collaborators -/

/-- The primitives the handlers call but do not implement: PyCryptodome's
AES-CBC (`cipher.encrypt` / `cipher.decrypt` for a cipher built from a key
and an IV), hashlib's sha256 and md5 digests, and the UTF-8 encoder.  They
are opaque parameters of the embedding; theorems that need their contracts
(e.g. decrypt inverting encrypt) take them as hypotheses. -/
structure CryptoPrims where
  aesEncrypt : List Nat → List Nat → List Nat → List Nat
  aesDecrypt : List Nat → List Nat → List Nat → List Nat
  sha256 : List Nat → List Nat
  md5 : List Nat → List Nat
  utf8 : String → List Nat

/-! ## OSSHandler / S3Handler key derivation (src/core/oss_handler.py,
src/core/s3_handler.py) -/

/-- The slice of the `[aliyun_oss]` / `[aws_s3]` config sections the key
derivation can see.  `encryption_key = none` models a missing config entry,
resolved by the code's fallback `'default_key_12345'`. -/
structure StoreConfig where
  region : String
  bucket_name : String
  encryption_key : Option String

/-- `oss_config.get('encryption_key', fallback='default_key_12345')`. -/
def StoreConfig.effectiveKey (c : StoreConfig) : String :=
  c.encryption_key.getD "default_key_12345"

/-- The AES-relevant state of an initialised `OSSHandler`. -/
structure OSSHandler where
  prims : CryptoPrims
  encryption_key : String
  aes_key : List Nat
  aes_iv : List Nat

/-- `OSSHandler.__init__`, lines 134-138: derive the AES key and IV once
from the static configured secret. -/
def OSSHandler.init (prims : CryptoPrims) (cfg : StoreConfig) : OSSHandler :=
  let secret := cfg.effectiveKey
  let keyBytes := prims.utf8 secret
  { prims := prims
    encryption_key := secret
    aes_key := prims.sha256 keyBytes
    aes_iv := (prims.md5 keyBytes).take 16 }

/-- `OSSHandler._deterministic_aes_encrypt` with the plaintext already
UTF-8 encoded: pad, AES-CBC encrypt with the fixed key/IV, url-safe base64,
strip `'='`. -/
def OSSHandler.encryptBytes (h : OSSHandler) (ptBytes : List Nat) : String :=
  rstripEq (b64EncodeBytes (h.prims.aesEncrypt h.aes_key h.aes_iv (pkcs7Pad ptBytes)))

/-- `OSSHandler._deterministic_aes_encrypt` (lines 229-242). -/
def OSSHandler.deterministic_aes_encrypt (h : OSSHandler) (plaintext : String) : String :=
  h.encryptBytes (h.prims.utf8 plaintext)

/-- `OSSHandler._deterministic_aes_decrypt` (lines 244-259) up to the final
`.decode('utf-8')` (the UTF-8 codec is the external collaborator): re-append
`'=' * (4 - len % 4)`, base64-decode, AES-CBC decrypt, unpad. -/
def OSSHandler.decryptToBytes (h : OSSHandler) (encrypted_text : String) : Option (List Nat) :=
  let padded := encrypted_text.data
    ++ List.replicate (4 - encrypted_text.length % 4) '='
  match urlsafe_b64decode padded with
  | none => none
  | some encData => pkcs7Unpad (h.prims.aesDecrypt h.aes_key h.aes_iv encData)

/-- Errors `generate_oss_key` / `generate_s3_key` can raise. -/
inductive KeyGenError
  | missingEpisode
  | invalidResourceType
deriving DecidableEq, Repr

/-- `OSSHandler.generate_oss_key` (lines 180-227).  `douban_id` and
`episode` enter the key through f-string interpolation, so `douban_id` is
its decimal rendering and the episode is rendered with `toString`. -/
def generate_oss_key (h : OSSHandler) (title douban_id key resource_type : String)
    (episode : Option Nat) : Except KeyGenError String :=
  let vod_str := title ++ "|" ++ douban_id
  let vod_hex := h.deterministic_aes_encrypt vod_str
  if resource_type = "m3u8" then
    match episode with
    | none => .error .missingEpisode
    | some ep =>
        let vod_ep_str := title ++ "|" ++ douban_id ++ "|" ++ toString ep
        let vod_ep_hex := h.deterministic_aes_encrypt vod_ep_str
        .ok (key ++ "/" ++ douban_id ++ "/" ++ vod_hex ++ "/" ++ toString ep
          ++ "/" ++ vod_ep_hex)
  else if resource_type = "cover" then
    .ok (key ++ "/" ++ douban_id ++ "/" ++ vod_hex ++ "/cover.jpg")
  else .error .invalidResourceType

/-- The AES-relevant state of an initialised `S3Handler`
(src/core/s3_handler.py duplicates the OSS logic verbatim). -/
structure S3Handler where
  prims : CryptoPrims
  encryption_key : String
  aes_key : List Nat
  aes_iv : List Nat

/-- `S3Handler.__init__`, lines 125-129. -/
def S3Handler.init (prims : CryptoPrims) (cfg : StoreConfig) : S3Handler :=
  let secret := cfg.effectiveKey
  let keyBytes := prims.utf8 secret
  { prims := prims
    encryption_key := secret
    aes_key := prims.sha256 keyBytes
    aes_iv := (prims.md5 keyBytes).take 16 }

/-- `S3Handler._deterministic_aes_encrypt` (lines 220-233). -/
def S3Handler.deterministic_aes_encrypt (h : S3Handler) (plaintext : String) : String :=
  rstripEq (b64EncodeBytes
    (h.prims.aesEncrypt h.aes_key h.aes_iv (pkcs7Pad (h.prims.utf8 plaintext))))

/-- `S3Handler.generate_s3_key` (lines 171-218). -/
def generate_s3_key (h : S3Handler) (title douban_id key resource_type : String)
    (episode : Option Nat) : Except KeyGenError String :=
  let vod_str := title ++ "|" ++ douban_id
  let vod_hex := h.deterministic_aes_encrypt vod_str
  if resource_type = "m3u8" then
    match episode with
    | none => .error .missingEpisode
    | some ep =>
        let vod_ep_str := title ++ "|" ++ douban_id ++ "|" ++ toString ep
        let vod_ep_hex := h.deterministic_aes_encrypt vod_ep_str
        .ok (key ++ "/" ++ douban_id ++ "/" ++ vod_hex ++ "/" ++ toString ep
          ++ "/" ++ vod_ep_hex)
  else if resource_type = "cover" then
    .ok (key ++ "/" ++ douban_id ++ "/" ++ vod_hex ++ "/cover.jpg")
  else .error .invalidResourceType

/-! ### Spec-side key formulas (refinement targets for C2), written from the
spec's words: `prefix/externalId/E(title|externalId)/cover.jpg` and
`prefix/externalId/E(title|externalId)/episodeIndex/E(title|externalId|episodeIndex)`. -/

/-- Spec formula for the cover key. -/
def specCoverKey (E : String → String) (pfx externalId title : String) : String :=
  pfx ++ "/" ++ externalId ++ "/" ++ E (title ++ "|" ++ externalId) ++ "/cover.jpg"

/-- Spec formula for the media-segment key. -/
def specSegmentKey (E : String → String) (pfx externalId title : String)
    (episodeIndex : Nat) : String :=
  pfx ++ "/" ++ externalId ++ "/" ++ E (title ++ "|" ++ externalId) ++ "/"
    ++ toString episodeIndex ++ "/"
    ++ E (title ++ "|" ++ externalId ++ "|" ++ toString episodeIndex)

/-- Spec description of `E`: encrypt the UTF-8 bytes with the fixed-key,
fixed-IV block cipher, URL-safe base64, padding stripped. -/
def specE (prims : CryptoPrims) (aesKey aesIv : List Nat) (x : String) : String :=
  rstripEq (b64EncodeBytes (prims.aesEncrypt aesKey aesIv (pkcs7Pad (prims.utf8 x))))

end VideoSync

namespace VideoSync

/-! ## Helper lemmas for the base64 / PKCS7 round trip -/

theorem b64Value_b64Char : ∀ v : Fin 64, b64Value (b64Char v.val) = some v.val := by
  decide

theorem b64Char_ne_pad : ∀ v : Fin 64, b64Char v.val ≠ '=' := by
  decide

theorem b64ValuesOf_map (vs : List Nat) (h : ∀ v ∈ vs, v < 64) :
    b64ValuesOf (vs.map b64Char) = some vs := by
  induction vs with
  | nil => rfl
  | cons v vs ih =>
      have hv : v < 64 := h v (by simp)
      have := b64Value_b64Char ⟨v, hv⟩
      simp only [List.map_cons, b64ValuesOf, this, ih (fun x hx => h x (by simp [hx]))]

theorem b64DecVals_b64EncVals (bs : List Nat) (h : ∀ b ∈ bs, b < 256) :
    b64DecVals (b64EncVals bs) = some bs := by
  induction bs using b64EncVals.induct with
  | case1 b1 b2 b3 rest ih =>
      have h1 : b1 < 256 := h b1 (by simp)
      have h2 : b2 < 256 := h b2 (by simp)
      have h3 : b3 < 256 := h b3 (by simp)
      have ih' := ih (fun b hb => h b (by simp [hb]))
      simp only [b64EncVals, b64DecVals, ih']
      congr 1
      have e1 : b1 / 4 * 4 + (b1 % 4 * 16 + b2 / 16) / 16 = b1 := by omega
      have e2 : (b1 % 4 * 16 + b2 / 16) % 16 * 16 + (b2 % 16 * 4 + b3 / 64) / 4 = b2 := by
        omega
      have e3 : (b2 % 16 * 4 + b3 / 64) % 4 * 64 + b3 % 64 = b3 := by omega
      rw [e1, e2, e3]
  | case2 b1 b2 =>
      have h1 : b1 < 256 := h b1 (by simp)
      have h2 : b2 < 256 := h b2 (by simp)
      simp only [b64EncVals, b64DecVals]
      congr 1
      have e1 : b1 / 4 * 4 + (b1 % 4 * 16 + b2 / 16) / 16 = b1 := by omega
      have e2 : (b1 % 4 * 16 + b2 / 16) % 16 * 16 + (b2 % 16 * 4) / 4 = b2 := by omega
      rw [e1, e2]
  | case3 b1 =>
      have h1 : b1 < 256 := h b1 (by simp)
      simp only [b64EncVals, b64DecVals]
      congr 1
      have e1 : b1 / 4 * 4 + (b1 % 4 * 16) / 16 = b1 := by omega
      rw [e1]
  | case4 => rfl

theorem b64EncVals_lt64 (bs : List Nat) (h : ∀ b ∈ bs, b < 256) :
    ∀ v ∈ b64EncVals bs, v < 64 := by
  induction bs using b64EncVals.induct with
  | case1 b1 b2 b3 rest ih =>
      have h1 : b1 < 256 := h b1 (by simp)
      have h2 : b2 < 256 := h b2 (by simp)
      have h3 : b3 < 256 := h b3 (by simp)
      have ih' := ih (fun b hb => h b (by simp [hb]))
      intro v hv
      simp only [b64EncVals, List.mem_cons] at hv
      rcases hv with rfl | rfl | rfl | rfl | hv
      · omega
      · omega
      · omega
      · omega
      · exact ih' v hv
  | case2 b1 b2 =>
      have h1 : b1 < 256 := h b1 (by simp)
      have h2 : b2 < 256 := h b2 (by simp)
      intro v hv
      simp only [b64EncVals, List.mem_cons, List.not_mem_nil, or_false] at hv
      rcases hv with rfl | rfl | rfl <;> omega
  | case3 b1 =>
      have h1 : b1 < 256 := h b1 (by simp)
      intro v hv
      simp only [b64EncVals, List.mem_cons, List.not_mem_nil, or_false] at hv
      rcases hv with rfl | rfl <;> omega
  | case4 => intro v hv; simp [b64EncVals] at hv

theorem dropWhile_replicate_append (k : Nat) (l : List Char) :
    List.dropWhile (fun c => c = '=') (List.replicate k '=' ++ l)
      = List.dropWhile (fun c => c = '=') l := by
  induction k with
  | zero => rfl
  | succ k ih => simp [List.replicate_succ, List.dropWhile_cons, ih]

theorem dropWhile_no_pad (l : List Char) (h : ∀ c ∈ l, c ≠ '=') :
    List.dropWhile (fun c => c = '=') l = l := by
  cases l with
  | nil => rfl
  | cons c t =>
      have : c ≠ '=' := h c (by simp)
      simp [List.dropWhile_cons, this]

theorem rstripEq_append_pad (cs : List Char) (k : Nat) (h : ∀ c ∈ cs, c ≠ '=') :
    rstripEq (String.mk (cs ++ List.replicate k '=')) = String.mk cs := by
  unfold rstripEq
  have hd : (String.mk (cs ++ List.replicate k '=')).data = cs ++ List.replicate k '=' := rfl
  rw [hd, List.reverse_append, List.reverse_replicate, dropWhile_replicate_append,
    dropWhile_no_pad _ (fun c hc => h c (List.mem_reverse.mp hc)), List.reverse_reverse]

theorem pkcs7Unpad_pkcs7Pad (bs : List Nat) : pkcs7Unpad (pkcs7Pad bs) = some bs := by
  unfold pkcs7Pad pkcs7Unpad
  have hn : 1 ≤ 16 - bs.length % 16 ∧ 16 - bs.length % 16 ≤ 16 := by omega
  set n := 16 - bs.length % 16 with hndef
  have hlen : (bs ++ List.replicate n n).length = bs.length + n := by simp
  have hmod : (bs.length + n) % 16 = 0 := by omega
  have hlast : (bs ++ List.replicate n n).getLast? = some n := by
    rw [List.getLast?_append, List.getLast?_replicate]
    simp only [if_neg (by omega : ¬ n = 0)]
    rfl
  simp only [hlen, hmod, hlast]
  have hcond : ¬ (n = 0 ∨ 16 < n ∨ bs.length + n < n) := by omega
  simp only [ne_eq, not_true_eq_false, if_false, hcond, if_true]
  have hsub : bs.length + n - n = bs.length := by omega
  rw [hsub, List.drop_left, List.take_left]
  have hall : (List.replicate n n).all (fun b => b = n) = true := by
    simp [List.all_eq_true]
  rw [hall]
  simp

theorem pkcs7Pad_length_mod (bs : List Nat) : (pkcs7Pad bs).length % 16 = 0 := by
  unfold pkcs7Pad
  simp only [List.length_append, List.length_replicate]
  omega

theorem pkcs7Pad_bytes (bs : List Nat) (h : ∀ b ∈ bs, b < 256) :
    ∀ b ∈ pkcs7Pad bs, b < 256 := by
  unfold pkcs7Pad
  intro b hb
  rcases List.mem_append.mp hb with hb | hb
  · exact h b hb
  · have := List.eq_of_mem_replicate hb
    omega

end VideoSync

namespace VideoSync

/-- `S3Handler._deterministic_aes_encrypt` on already-UTF-8-encoded bytes. -/
def S3Handler.encryptBytes (h : S3Handler) (ptBytes : List Nat) : String :=
  rstripEq (b64EncodeBytes (h.prims.aesEncrypt h.aes_key h.aes_iv (pkcs7Pad ptBytes)))

/-- `S3Handler._deterministic_aes_decrypt` (lines 235-250) up to the final
`.decode('utf-8')`. -/
def S3Handler.decryptToBytes (h : S3Handler) (encrypted_text : String) : Option (List Nat) :=
  let padded := encrypted_text.data
    ++ List.replicate (4 - encrypted_text.length % 4) '='
  match urlsafe_b64decode padded with
  | none => none
  | some encData => pkcs7Unpad (h.prims.aesDecrypt h.aes_key h.aes_iv encData)

/-- Core round trip: the decryptor body inverts the encryptor body, for a
block cipher that inverts itself on block-multiple byte strings and outputs
bytes. -/
theorem decrypt_encrypt_bytes (h : OSSHandler) (p : List Nat)
    (hp : ∀ b ∈ p, b < 256)
    (hinv : ∀ x : List Nat, x.length % 16 = 0 → (∀ b ∈ x, b < 256) →
      h.prims.aesDecrypt h.aes_key h.aes_iv (h.prims.aesEncrypt h.aes_key h.aes_iv x) = x)
    (hbyte : ∀ x : List Nat, (∀ b ∈ x, b < 256) →
      ∀ b ∈ h.prims.aesEncrypt h.aes_key h.aes_iv x, b < 256) :
    h.decryptToBytes (h.encryptBytes p) = some p := by
  set ct := h.prims.aesEncrypt h.aes_key h.aes_iv (pkcs7Pad p) with hct
  have hctb : ∀ b ∈ ct, b < 256 := hbyte _ (pkcs7Pad_bytes p hp)
  have hvals : ∀ v ∈ b64EncVals ct, v < 64 := b64EncVals_lt64 ct hctb
  have hnopad : ∀ c ∈ (b64EncVals ct).map b64Char, c ≠ '=' := by
    intro c hc
    rcases List.mem_map.mp hc with ⟨v, hv, rfl⟩
    exact b64Char_ne_pad ⟨v, hvals v hv⟩
  have henc : h.encryptBytes p = String.mk ((b64EncVals ct).map b64Char) := by
    unfold OSSHandler.encryptBytes b64EncodeBytes
    rw [← hct]
    exact rstripEq_append_pad _ _ hnopad
  rw [henc]
  unfold OSSHandler.decryptToBytes
  have hfilter :
      ((String.mk ((b64EncVals ct).map b64Char)).data
          ++ List.replicate
            (4 - (String.mk ((b64EncVals ct).map b64Char)).length % 4) '=').filter
        (fun c => c ≠ '=')
        = (b64EncVals ct).map b64Char := by
    rw [List.filter_append]
    have h1 : ((b64EncVals ct).map b64Char).filter (fun c => c ≠ '=')
        = (b64EncVals ct).map b64Char :=
      List.filter_eq_self.mpr (fun c hc => by simpa using hnopad c hc)
    have h2 : (List.replicate (4 - (String.mk ((b64EncVals ct).map b64Char)).length % 4)
        '=').filter (fun c => c ≠ '=') = [] := by
      simp
    exact by rw [h1, h2, List.append_nil]
  unfold urlsafe_b64decode
  simp only [hfilter, b64ValuesOf_map _ hvals, b64DecVals_b64EncVals ct hctb]
  rw [hct, hinv (pkcs7Pad p) (pkcs7Pad_length_mod p) (pkcs7Pad_bytes p hp)]
  exact pkcs7Unpad_pkcs7Pad p

/-- A concrete instantiation of the external primitives, used by witnesses:
the block cipher is the identity (a legitimate inhabitant of the abstract
cipher contract), the digests are constant, UTF-8 is char codes mod 256. -/
def testPrims : CryptoPrims where
  aesEncrypt := fun _ _ d => d
  aesDecrypt := fun _ _ d => d
  sha256 := fun _ => List.replicate 32 0
  md5 := fun _ => List.replicate 16 0
  utf8 := fun s => s.data.map (fun c => c.toNat % 256)

/-- Witness config A. -/
def testCfgA : StoreConfig :=
  { region := "cn-hangzhou", bucket_name := "bucket-a", encryption_key := some "secret-k" }

/-- Witness config B: same secret, different region and bucket. -/
def testCfgB : StoreConfig :=
  { region := "us-east-1", bucket_name := "bucket-b", encryption_key := some "secret-k" }

/-- C1: the key derivation is deterministic and free of hidden state: two
handlers initialised from configurations carrying the same encryption secret
(possibly across processes/restarts, possibly differing in every other
config field) derive identical AES key/IV material and hence identical key
strings for every input tuple, for both `generate_oss_key` and
`generate_s3_key`. -/
theorem C1_derive_key_deterministic (prims : CryptoPrims) (c1 c2 : StoreConfig)
    (hsec : c1.effectiveKey = c2.effectiveKey)
    (title douban_id key resource_type : String) (episode : Option Nat) :
    generate_oss_key (OSSHandler.init prims c1) title douban_id key resource_type episode
      = generate_oss_key (OSSHandler.init prims c2) title douban_id key resource_type episode
    ∧ generate_s3_key (S3Handler.init prims c1) title douban_id key resource_type episode
      = generate_s3_key (S3Handler.init prims c2) title douban_id key resource_type episode := by
  unfold OSSHandler.init S3Handler.init
  rw [hsec]
  exact ⟨rfl, rfl⟩

/-- Witness for C1 at concrete configs sharing the secret `"secret-k"`. -/
theorem C1_derive_key_deterministic_witness :
    testCfgA.effectiveKey = testCfgB.effectiveKey ∧
      generate_oss_key (OSSHandler.init testPrims testCfgA) "title" "42" "video_data"
          "cover" none
        = generate_oss_key (OSSHandler.init testPrims testCfgB) "title" "42" "video_data"
          "cover" none :=
  ⟨rfl, (C1_derive_key_deterministic testPrims testCfgA testCfgB rfl "title" "42"
    "video_data" "cover" none).1⟩

/-- C2: for `cover` the derived key is exactly
`prefix/externalId/E(title|externalId)/cover.jpg`, and for `m3u8` with an
episode index it is exactly
`prefix/externalId/E(title|externalId)/episodeIndex/E(title|externalId|episodeIndex)`,
where `E` pads and encrypts the UTF-8 bytes with the fixed-key, fixed-IV
block cipher and strips the base64 padding; this holds for both the OSS and
the S3 deriver. -/
theorem C2_generate_key_matches_spec (h : OSSHandler) (s3 : S3Handler)
    (title douban_id pfx : String) (ep : Nat) (episode : Option Nat) :
    generate_oss_key h title douban_id pfx "cover" episode
        = .ok (specCoverKey h.deterministic_aes_encrypt pfx douban_id title)
      ∧ generate_oss_key h title douban_id pfx "m3u8" (some ep)
        = .ok (specSegmentKey h.deterministic_aes_encrypt pfx douban_id title ep)
      ∧ generate_s3_key s3 title douban_id pfx "cover" episode
        = .ok (specCoverKey s3.deterministic_aes_encrypt pfx douban_id title)
      ∧ generate_s3_key s3 title douban_id pfx "m3u8" (some ep)
        = .ok (specSegmentKey s3.deterministic_aes_encrypt pfx douban_id title ep)
      ∧ h.deterministic_aes_encrypt = specE h.prims h.aes_key h.aes_iv :=
  ⟨rfl, rfl, rfl, rfl, rfl⟩

/-- C10: `_deterministic_aes_decrypt` exactly inverts
`_deterministic_aes_encrypt` at the byte level (the `str.encode('utf-8')` /
`bytes.decode('utf-8')` endpoints are the standard library's inverse pair):
re-adding the stripped padding as `'=' * (4 - len % 4)` — four `'='` when the
stripped form's length is divisible by 4, which the lenient base64 decoder
accepts — then fixed-IV CBC decryption and unpadding recovers every
plaintext byte string, for any block cipher that is self-inverse on
block-multiple byte strings and outputs bytes.  Stated for the OSS handler
and the verbatim-duplicated S3 handler. -/
theorem C10_decrypt_inverts_encrypt (h : OSSHandler) (s : S3Handler) (p : List Nat)
    (hp : ∀ b ∈ p, b < 256)
    (hinvO : ∀ x : List Nat, x.length % 16 = 0 → (∀ b ∈ x, b < 256) →
      h.prims.aesDecrypt h.aes_key h.aes_iv (h.prims.aesEncrypt h.aes_key h.aes_iv x) = x)
    (hbyteO : ∀ x : List Nat, (∀ b ∈ x, b < 256) →
      ∀ b ∈ h.prims.aesEncrypt h.aes_key h.aes_iv x, b < 256)
    (hinvS : ∀ x : List Nat, x.length % 16 = 0 → (∀ b ∈ x, b < 256) →
      s.prims.aesDecrypt s.aes_key s.aes_iv (s.prims.aesEncrypt s.aes_key s.aes_iv x) = x)
    (hbyteS : ∀ x : List Nat, (∀ b ∈ x, b < 256) →
      ∀ b ∈ s.prims.aesEncrypt s.aes_key s.aes_iv x, b < 256) :
    h.decryptToBytes (h.encryptBytes p) = some p
      ∧ s.decryptToBytes (s.encryptBytes p) = some p :=
  ⟨decrypt_encrypt_bytes h p hp hinvO hbyteO,
   decrypt_encrypt_bytes ⟨s.prims, s.encryption_key, s.aes_key, s.aes_iv⟩ p hp hinvS hbyteS⟩

/-- Witness for C10 with the identity block cipher and the concrete
plaintext bytes `[104, 105]`. -/
theorem C10_decrypt_inverts_encrypt_witness :
    (OSSHandler.init testPrims testCfgA).decryptToBytes
        ((OSSHandler.init testPrims testCfgA).encryptBytes [104, 105]) = some [104, 105]
      ∧ (S3Handler.init testPrims testCfgA).decryptToBytes
        ((S3Handler.init testPrims testCfgA).encryptBytes [104, 105]) = some [104, 105] :=
  C10_decrypt_inverts_encrypt (OSSHandler.init testPrims testCfgA)
    (S3Handler.init testPrims testCfgA) [104, 105] (by decide)
    (fun _ _ _ => rfl) (fun _ hx => hx) (fun _ _ _ => rfl) (fun _ hx => hx)

end VideoSync

namespace VideoSync

/-! ## Checkpoint store (src/core/util_handler.py) -/

/-- Primitive file-system operations a save may perform.  A crash may occur
between any two of them (modelled by executing only a prefix). -/
inductive FsOp
  | openTrunc (path : String)
  | writeData (path : String) (data : String)
  | rename (src dst : String)
deriving DecidableEq, Repr

/-- Whether an operation is a rename. -/
def FsOp.isRen : FsOp → Bool
  | .rename _ _ => true
  | _ => false

/-- A file system: path to contents (`none` = absent). -/
def FileSys := String → Option String

/-- Effect of one operation. -/
def applyOp (fs : FileSys) : FsOp → FileSys
  | .openTrunc p => fun q => if q = p then some "" else fs q
  | .writeData p d => fun q => if q = p then some ((fs p).getD "" ++ d) else fs q
  | .rename src dst => fun q =>
      if q = dst then fs src else if q = src then none else fs q

/-- Effect of a sequence of operations. -/
def applyOps (fs : FileSys) : List FsOp → FileSys
  | [] => fs
  | op :: rest => applyOps (applyOp fs op) rest

/-- `save_state` (src/core/util_handler.py lines 130-160):
`open(state_file_path, mode='w')` — a truncating open of the final path —
followed by `json.dump(data, f, ...)` writing the serialized checkpoint.
No temporary file and no rename appear in the function. -/
def save_state_ops (statePath : String) (serialized : String) : List FsOp :=
  [FsOp.openTrunc statePath, FsOp.writeData statePath serialized]

/-- A file system whose checkpoint file holds the previous checkpoint. -/
def crashFs : FileSys := fun p => if p = "state.json" then some "OLD" else none

/-- C4 is false of the code: with the checkpoint file holding `"OLD"`, a
crash after `save_state`'s truncating open (prefix of length 1 of its
operations) leaves the file empty — neither the old nor the new checkpoint
contents, i.e. a truncated checkpoint. -/
theorem C4_save_truncation_counterexample :
    ¬ (∀ k : Nat,
        applyOps crashFs ((save_state_ops "state.json" "NEW").take k) "state.json"
            = some "OLD"
          ∨ applyOps crashFs ((save_state_ops "state.json" "NEW").take k) "state.json"
            = some "NEW") := by
  intro hcl
  have h1 := hcl 1
  revert h1
  decide

/-- C4 amended: `save_state` is not crash-atomic.  It performs no rename (no
write-to-temp-then-rename or equivalent); a completed save does store the new
contents, but a crash right after the truncating open leaves an empty
(truncated) checkpoint file. -/
theorem C4_save_state_writes_directly (sp c : String) (fs : FileSys) :
    (save_state_ops sp c).all (fun op => ! op.isRen) = true
      ∧ applyOps fs (save_state_ops sp c) sp = some c
      ∧ applyOps fs ((save_state_ops sp c).take 1) sp = some "" := by
  refine ⟨rfl, ?_, ?_⟩
  · simp [save_state_ops, applyOps, applyOp]
  · simp [save_state_ops, applyOps, applyOp]

/-! ## Upload remediation drivers (`run_oss_fixer` / `run_s3_fixer`,
src/main.py lines 274-393 and 395-513) -/

/-- `api.fetch_video_details` outcome as the fixer discriminates it. -/
inductive FixDetailResp
  | noResp
  | emptyDetail
  | okDetail
  | code402
  | codeOther
deriving DecidableEq, Repr

/-- Oracles for one remediation pass: detail responses and relogin results
per id and attempt index, and the per-attempt upload result
(`false` covers both a `False` return and a raised exception, which the
fixer handles identically: append the id and break). -/
structure FixEnv where
  detailR : String → Nat → FixDetailResp
  loginR : String → Nat → Option String
  uploadOk : String → Nat → Bool

/-- The `for attempt in range(2)` retry loop for one id, returning whether
the id gets appended to the pass's `failed_synced_ids`.  `rem` is the number
of remaining loop iterations, `k` the attempt index.  Detail-fetch failure
and empty detail `break` without appending; a token expiry with successful
relogin `continue`s (and if the loop then exhausts, the id is likewise not
appended); relogin failure, an unknown code and a failed upload append. -/
def fixAttempts (env : FixEnv) (vid : String) : Nat → Nat → Bool
  | 0, _ => false
  | rem + 1, k =>
    match env.detailR vid k with
    | .noResp => false
    | .emptyDetail => false
    | .okDetail => ! env.uploadOk vid k
    | .code402 =>
        match env.loginR vid k with
        | some _ => fixAttempts env vid rem (k + 1)
        | none => true
    | .codeOther => true

/-- Whether one id fails in a remediation pass (`max_retries = 2`). -/
def fixFails (env : FixEnv) (vid : String) : Bool := fixAttempts env vid 2 0

/-- The pass's accumulation of `failed_synced_ids`: starts from a fresh
empty list and appends exactly the ids whose retry loop ends in a recorded
failure. -/
def fixerPassFailed (env : FixEnv) (fixIds : List String) : List String :=
  fixIds.foldl (fun acc vid => if fixAttempts env vid 2 0 then acc ++ [vid] else acc) []

/-- `run_oss_fixer`: the `failed_synced_ids` value written back by the final
`save_state` (the early return on an empty fix list leaves the loaded value
in place). -/
def run_oss_fixer (env : FixEnv) (loadedFailed : List String) : List String :=
  if loadedFailed = [] then loadedFailed else fixerPassFailed env loadedFailed

/-- `run_s3_fixer` (verbatim duplicate of `run_oss_fixer` against the S3
handler). -/
def run_s3_fixer (env : FixEnv) (loadedFailed : List String) : List String :=
  if loadedFailed = [] then loadedFailed else fixerPassFailed env loadedFailed

theorem fixerPassFailed_acc (env : FixEnv) (l : List String) :
    ∀ acc : List String,
      l.foldl (fun acc vid => if fixAttempts env vid 2 0 then acc ++ [vid] else acc) acc
        = acc ++ l.filter (fixFails env) := by
  induction l with
  | nil => intro acc; simp
  | cons v l ih =>
      intro acc
      by_cases hv : fixFails env v
      · have hv' : fixAttempts env v 2 0 = true := hv
        simp [List.foldl_cons, List.filter_cons, hv, hv', ih]
      · have hv' : fixAttempts env v 2 0 = false := Bool.eq_false_iff.mpr hv
        simp [List.foldl_cons, List.filter_cons, hv, hv', ih]

/-- C5: after an upload-remediation pass (`oss_fix` / `s3_fix`), the
failed-upload list written back to the checkpoint is exactly the ids of the
attempted list that failed during this pass — computed from a fresh empty
accumulator, so the prior checkpoint contents are never unioned in, and
every id whose remediation succeeded is absent. -/
theorem C5_fixer_failed_list_authoritative (env : FixEnv) (loadedFailed : List String) :
    run_oss_fixer env loadedFailed = loadedFailed.filter (fixFails env)
      ∧ run_s3_fixer env loadedFailed = loadedFailed.filter (fixFails env)
      ∧ ∀ vid : String,
          (vid ∈ run_oss_fixer env loadedFailed
            ↔ vid ∈ loadedFailed ∧ fixFails env vid = true) := by
  have hmain : fixerPassFailed env loadedFailed = loadedFailed.filter (fixFails env) := by
    unfold fixerPassFailed
    simpa using fixerPassFailed_acc env loadedFailed []
  have h1 : run_oss_fixer env loadedFailed = loadedFailed.filter (fixFails env) := by
    unfold run_oss_fixer
    by_cases hl : loadedFailed = []
    · simp [hl]
    · simp [hl, hmain]
  have h2 : run_s3_fixer env loadedFailed = loadedFailed.filter (fixFails env) := by
    unfold run_s3_fixer
    by_cases hl : loadedFailed = []
    · simp [hl]
    · simp [hl, hmain]
  refine ⟨h1, h2, fun vid => ?_⟩
  rw [h1, List.mem_filter]

end VideoSync

namespace VideoSync

/-! ## Ingestion orchestrator (`run_scraper`, src/main.py lines 48-271)

External collaborators (API, database, OSS upload, site push) are oracles in
`ScrEnv`; call-counter indices let successive calls of the same endpoint
return different results.  Failure *sets* (`set` objects in the running
process) are modelled as `Finset String`; the list/set mismatch the JSON
round trip introduces on a resumed run is modelled separately below with
dynamically-typed values. -/

/-- One catalog list item (the fields the orchestrator reads). -/
structure Video where
  id : String
  title : String
deriving DecidableEq, Repr

/-- Outcome of `api.fetch_video_page` as `run_scraper` discriminates it. -/
inductive PageResp
  | noResp
  | code402
  | code0 (videos : List Video)
  | codeOther
deriving DecidableEq, Repr

/-- Outcome of `api.fetch_video_details` inside the page loop: anything
other than code 0 with data is a skip. -/
inductive DetailOutcome
  | failResp
  | emptyData
  | okData
deriving DecidableEq, Repr

/-- Outcome of one domain's `session.post` inside
`SiteHandler.sync_videos_to_site`: an exception, or HTTP success with the
body listing the ids the domain rejected. -/
inductive PushOutcome
  | exc
  | ok (failedIds : List String)
deriving DecidableEq, Repr

/-- Oracles for one orchestrator run. -/
structure ScrEnv where
  domains : List String
  fetchPage : Nat → PageResp
  loginR : Nat → Option String
  detail : String → DetailOutcome
  insertOk : String → Bool
  ossOk : String → Bool
  dbFetchEmpty : Nat → Bool
  push : Nat → String → PushOutcome

/-- The orchestrator's mutable state: the loop variables and state-dict
entries of `run_scraper`, the Record Store content (`db`), plus the oracle
call counters. -/
structure ScrState where
  currentPage : Nat
  lastSyncedPage : Nat
  apiToken : Option String
  failedSynced : List String
  failedSite : String → Finset String
  db : Finset String
  fetchCtr : Nat
  loginCtr : Nat
  syncCtr : Nat

/-- Observable events of a run. -/
inductive Ev
  | fetch (page : Nat)
  | login (ok : Bool)
  | save (lastPage : Nat)
  | detailFetch (vid : String)
  | insertRec (vid : String)
  | skipExisting (vid : String)
deriving DecidableEq, Repr

/-- One item of the page loop (lines 139-205): the `db.video_exists` check
comes first and skips without a detail fetch; then detail fetch, insert, and
the OSS upload whose failure (returned or raised) appends to
`failed_synced_ids`. -/
def processVideo (env : ScrEnv) (s : ScrState) (processed : List String) (v : Video) :
    ScrState × List String × List Ev :=
  if v.id ∈ s.db then (s, processed, [.skipExisting v.id])
  else
    match env.detail v.id with
    | .failResp => (s, processed, [.detailFetch v.id])
    | .emptyData => (s, processed, [.detailFetch v.id])
    | .okData =>
        if env.insertOk v.id then
          let s1 := { s with db := insert v.id s.db }
          let processed1 := processed ++ [v.id]
          if env.ossOk v.id then
            (s1, processed1, [.detailFetch v.id, .insertRec v.id])
          else
            ({ s1 with failedSynced := s1.failedSynced ++ [v.id] }, processed1,
              [.detailFetch v.id, .insertRec v.id])
        else (s, processed, [.detailFetch v.id, .insertRec v.id])

/-- The whole `for video in videos` loop of one page. -/
def processPage (env : ScrEnv) (s : ScrState) (videos : List Video) :
    ScrState × List String × List Ev :=
  videos.foldl
    (fun acc v =>
      let r := processVideo env acc.1 acc.2.1 v
      (r.1, r.2.1, acc.2.2 ++ r.2.2))
    (s, [], [])

/-- `SiteHandler.sync_videos_to_site` (src/core/site_handler.py lines
159-226): the domains one sync call targets. -/
def targetDomains (handlerDomains : List String) (domainArg : Option String) : List String :=
  match domainArg with
  | some d => [d]
  | none => handlerDomains

/-- `SiteHandler.sync_videos_to_site` as the per-domain failure map it
returns (an absent entry and an empty entry are identified — all downstream
uses are membership tests).  A per-domain exception records the whole
batch's id set for that domain. -/
def sync_videos_to_site (handlerDomains : List String) (push : String → PushOutcome)
    (videos : List Video) (domainArg : Option String) : String → Finset String :=
  let target := targetDomains handlerDomains domainArg
  let videoIdSet := (videos.map Video.id).toFinset
  fun d =>
    if d ∈ target then
      match push d with
      | .exc => videoIdSet
      | .ok l => l.toFinset
    else ∅

/-- The site-sync block of one page (lines 207-247), in the in-memory `set`
semantics (first run): re-read the batch from the Record Store, push it, and
merge the returned per-domain failures into `failed_site` (union when the
domain is present, plain entry otherwise — both are set-union at membership
level).  If the step raises (modelled: the Record Store returned no rows),
the whole batch is recorded against every configured domain via
`setdefault(...).update(...)`. -/
def sitePhase (env : ScrEnv) (s : ScrState) (processed : List String) : ScrState :=
  if processed = [] then s
  else if env.dbFetchEmpty s.syncCtr then
    { s with
      syncCtr := s.syncCtr + 1
      failedSite := fun d =>
        if d ∈ env.domains then s.failedSite d ∪ processed.toFinset
        else s.failedSite d }
  else
    let dbRows := processed.map (fun i => Video.mk i "")
    let fm := sync_videos_to_site env.domains (env.push s.syncCtr) dbRows none
    { s with
      syncCtr := s.syncCtr + 1
      failedSite := fun d => s.failedSite d ∪ fm d }

/-- The `while True` page loop, fuel-bounded.  Token expiry (code 402) with
a successful relogin stores the token, saves the checkpoint (with
`last_synced_page` untouched) and retries without advancing the page; a
failed relogin breaks.  A non-empty page is processed, site-synced, and then
checkpointed with `last_synced_page = current_page` before the page counter
advances. -/
def runScraper (env : ScrEnv) : Nat → ScrState → ScrState × List Ev
  | 0, s => (s, [])
  | fuel + 1, s =>
    match env.fetchPage s.fetchCtr with
    | .noResp => ({ s with fetchCtr := s.fetchCtr + 1 }, [.fetch s.currentPage])
    | .codeOther => ({ s with fetchCtr := s.fetchCtr + 1 }, [.fetch s.currentPage])
    | .code402 =>
        match env.loginR s.loginCtr with
        | some t =>
            let s2 : ScrState :=
              { s with
                fetchCtr := s.fetchCtr + 1
                loginCtr := s.loginCtr + 1
                apiToken := some t }
            let r := runScraper env fuel s2
            (r.1, [.fetch s.currentPage, .login true, .save s2.lastSyncedPage] ++ r.2)
        | none =>
            ({ s with fetchCtr := s.fetchCtr + 1, loginCtr := s.loginCtr + 1 },
              [.fetch s.currentPage, .login false])
    | .code0 videos =>
        if videos = [] then
          ({ s with fetchCtr := s.fetchCtr + 1 }, [.fetch s.currentPage])
        else
          let s1 : ScrState := { s with fetchCtr := s.fetchCtr + 1 }
          let pr := processPage env s1 videos
          let s3 := sitePhase env pr.1 pr.2.1
          let s4 : ScrState :=
            { s3 with lastSyncedPage := s.currentPage, currentPage := s.currentPage + 1 }
          let r := runScraper env fuel s4
          (r.1, [.fetch s.currentPage] ++ pr.2.2 ++ [.save s.currentPage] ++ r.2)

/-- The checkpoint contents `run_scraper` loads at entry. -/
structure LoadedState where
  lastSyncedPage : Nat
  apiToken : Option String
  failedSynced : List String
  failedSite : String → Finset String

/-- Lines 75-85: state loading and the page-0 reset. -/
def initScrState (L : LoadedState) (db0 : Finset String) : ScrState :=
  { currentPage := if L.lastSyncedPage = 0 then 1 else L.lastSyncedPage
    lastSyncedPage := L.lastSyncedPage
    apiToken := L.apiToken
    failedSynced := L.failedSynced
    failedSite := L.failedSite
    db := db0
    fetchCtr := 0
    loginCtr := 0
    syncCtr := 0 }

/-- The `last_synced_page` values of the successive checkpoint saves of a
trace, in order. -/
def savedPages (evs : List Ev) : List Nat :=
  evs.filterMap (fun e =>
    match e with
    | .save n => some n
    | _ => none)

/-- The state reached after a successful in-place token refresh. -/
def retryState (s : ScrState) (t : String) : ScrState :=
  { s with fetchCtr := s.fetchCtr + 1, loginCtr := s.loginCtr + 1, apiToken := some t }

end VideoSync

namespace VideoSync

@[simp] theorem savedPages_nil : savedPages [] = [] := rfl

@[simp] theorem savedPages_fetch (p : Nat) (l : List Ev) :
    savedPages (.fetch p :: l) = savedPages l := rfl

@[simp] theorem savedPages_login (b : Bool) (l : List Ev) :
    savedPages (.login b :: l) = savedPages l := rfl

@[simp] theorem savedPages_save (n : Nat) (l : List Ev) :
    savedPages (.save n :: l) = n :: savedPages l := rfl

@[simp] theorem savedPages_detailFetch (v : String) (l : List Ev) :
    savedPages (.detailFetch v :: l) = savedPages l := rfl

@[simp] theorem savedPages_insertRec (v : String) (l : List Ev) :
    savedPages (.insertRec v :: l) = savedPages l := rfl

@[simp] theorem savedPages_skipExisting (v : String) (l : List Ev) :
    savedPages (.skipExisting v :: l) = savedPages l := rfl

@[simp] theorem savedPages_append (a b : List Ev) :
    savedPages (a ++ b) = savedPages a ++ savedPages b := by
  simp [savedPages, List.filterMap_append]

theorem processVideo_no_save (env : ScrEnv) (s : ScrState) (p : List String) (v : Video) :
    savedPages (processVideo env s p v).2.2 = [] := by
  unfold processVideo
  split
  · rfl
  · cases env.detail v.id
    case failResp => rfl
    case emptyData => rfl
    case okData =>
        dsimp only
        split
        · split <;> rfl
        · rfl

theorem processVideo_currentPage (env : ScrEnv) (s : ScrState) (p : List String) (v : Video) :
    (processVideo env s p v).1.currentPage = s.currentPage
      ∧ (processVideo env s p v).1.lastSyncedPage = s.lastSyncedPage
      ∧ (processVideo env s p v).1.failedSite = s.failedSite := by
  unfold processVideo
  split
  · exact ⟨rfl, rfl, rfl⟩
  · cases env.detail v.id
    case failResp => exact ⟨rfl, rfl, rfl⟩
    case emptyData => exact ⟨rfl, rfl, rfl⟩
    case okData =>
        dsimp only
        split
        · split <;> exact ⟨rfl, rfl, rfl⟩
        · exact ⟨rfl, rfl, rfl⟩

theorem processVideo_mem (env : ScrEnv) (s : ScrState) (p : List String) (v : Video)
    (hv : v.id ∈ s.db) :
    processVideo env s p v = (s, p, [.skipExisting v.id]) := by
  unfold processVideo
  rw [if_pos hv]

theorem processVideo_protect (env : ScrEnv) (s : ScrState) (p : List String) (v : Video)
    (vid : String) (hvid : vid ∈ s.db) :
    vid ∈ (processVideo env s p v).1.db
      ∧ Ev.detailFetch vid ∉ (processVideo env s p v).2.2
      ∧ Ev.insertRec vid ∉ (processVideo env s p v).2.2 := by
  by_cases hv : v.id ∈ s.db
  · rw [processVideo_mem env s p v hv]
    exact ⟨hvid, by simp, by simp⟩
  · have hne : vid ≠ v.id := fun h => hv (h ▸ hvid)
    unfold processVideo
    rw [if_neg hv]
    cases env.detail v.id
    · exact ⟨hvid, by simp [hne], by simp⟩
    · exact ⟨hvid, by simp [hne], by simp⟩
    · dsimp only
      split
      · split
        · exact ⟨Finset.mem_insert_of_mem hvid, by simp [hne], by simp [hne]⟩
        · exact ⟨Finset.mem_insert_of_mem hvid, by simp [hne], by simp [hne]⟩
      · exact ⟨hvid, by simp [hne], by simp [hne]⟩

end VideoSync

namespace VideoSync

theorem processPage_fold_no_save (env : ScrEnv) (videos : List Video) :
    ∀ (s : ScrState) (p : List String) (evs : List Ev), savedPages evs = [] →
      savedPages ((videos.foldl
        (fun acc v =>
          let r := processVideo env acc.1 acc.2.1 v
          (r.1, r.2.1, acc.2.2 ++ r.2.2)) (s, p, evs)).2.2) = [] := by
  induction videos with
  | nil => intro s p evs h; simpa using h
  | cons v vs ih =>
      intro s p evs h
      simp only [List.foldl_cons]
      exact ih _ _ _ (by rw [savedPages_append, h, processVideo_no_save]; rfl)

theorem processPage_no_save (env : ScrEnv) (s : ScrState) (videos : List Video) :
    savedPages (processPage env s videos).2.2 = [] :=
  processPage_fold_no_save env videos s [] [] rfl

theorem processPage_fold_state (env : ScrEnv) (videos : List Video) :
    ∀ (s : ScrState) (p : List String) (evs : List Ev),
      ((videos.foldl
        (fun acc v =>
          let r := processVideo env acc.1 acc.2.1 v
          (r.1, r.2.1, acc.2.2 ++ r.2.2)) (s, p, evs)).1.currentPage = s.currentPage
        ∧ (videos.foldl
            (fun acc v =>
              let r := processVideo env acc.1 acc.2.1 v
              (r.1, r.2.1, acc.2.2 ++ r.2.2)) (s, p, evs)).1.lastSyncedPage
            = s.lastSyncedPage
        ∧ (videos.foldl
            (fun acc v =>
              let r := processVideo env acc.1 acc.2.1 v
              (r.1, r.2.1, acc.2.2 ++ r.2.2)) (s, p, evs)).1.failedSite = s.failedSite) := by
  induction videos with
  | nil => intro s p evs; exact ⟨rfl, rfl, rfl⟩
  | cons v vs ih =>
      intro s p evs
      simp only [List.foldl_cons]
      have hv := processVideo_currentPage env s p v
      have hrec := ih (processVideo env s p v).1 (processVideo env s p v).2.1
        (evs ++ (processVideo env s p v).2.2)
      exact ⟨hrec.1.trans hv.1, hrec.2.1.trans hv.2.1, hrec.2.2.trans hv.2.2⟩

theorem processPage_fold_protect (env : ScrEnv) (videos : List Video) (vid : String) :
    ∀ (s : ScrState) (p : List String) (evs : List Ev), vid ∈ s.db →
      Ev.detailFetch vid ∉ evs → Ev.insertRec vid ∉ evs →
      (vid ∈ ((videos.foldl
          (fun acc v =>
            let r := processVideo env acc.1 acc.2.1 v
            (r.1, r.2.1, acc.2.2 ++ r.2.2)) (s, p, evs)).1.db)
        ∧ Ev.detailFetch vid ∉ (videos.foldl
            (fun acc v =>
              let r := processVideo env acc.1 acc.2.1 v
              (r.1, r.2.1, acc.2.2 ++ r.2.2)) (s, p, evs)).2.2
        ∧ Ev.insertRec vid ∉ (videos.foldl
            (fun acc v =>
              let r := processVideo env acc.1 acc.2.1 v
              (r.1, r.2.1, acc.2.2 ++ r.2.2)) (s, p, evs)).2.2) := by
  induction videos with
  | nil => intro s p evs hdb h1 h2; exact ⟨hdb, h1, h2⟩
  | cons v vs ih =>
      intro s p evs hdb h1 h2
      simp only [List.foldl_cons]
      have hv := processVideo_protect env s p v vid hdb
      refine ih _ _ _ hv.1 ?_ ?_
      · intro hmem
        rcases List.mem_append.mp hmem with hm | hm
        · exact h1 hm
        · exact hv.2.1 hm
      · intro hmem
        rcases List.mem_append.mp hmem with hm | hm
        · exact h2 hm
        · exact hv.2.2 hm

theorem sitePhase_state (env : ScrEnv) (s : ScrState) (processed : List String) :
    (sitePhase env s processed).db = s.db
      ∧ (sitePhase env s processed).currentPage = s.currentPage
      ∧ (sitePhase env s processed).lastSyncedPage = s.lastSyncedPage := by
  unfold sitePhase
  split
  · exact ⟨rfl, rfl, rfl⟩
  · split
    · exact ⟨rfl, rfl, rfl⟩
    · exact ⟨rfl, rfl, rfl⟩

theorem sitePhase_failedSite_mono (env : ScrEnv) (s : ScrState) (processed : List String)
    (d : String) : s.failedSite d ⊆ (sitePhase env s processed).failedSite d := by
  unfold sitePhase
  split
  · exact Finset.Subset.refl _
  · split
    · dsimp only
      split
      · exact Finset.subset_union_left
      · exact Finset.Subset.refl _
    · exact Finset.subset_union_left

end VideoSync

namespace VideoSync

theorem runScraper_saves_chain (env : ScrEnv) :
    ∀ (fuel : Nat) (s : ScrState), s.lastSyncedPage ≤ s.currentPage →
      List.Chain' (· ≤ ·) (s.lastSyncedPage :: savedPages (runScraper env fuel s).2) := by
  intro fuel
  induction fuel with
  | zero =>
      intro s h
      simp [runScraper]
  | succ fuel ih =>
      intro s h
      simp only [runScraper]
      cases henv : env.fetchPage s.fetchCtr
      case noResp => simp
      case codeOther => simp
      case code402 =>
          dsimp only
          cases hl : env.loginR s.loginCtr
          case none => simp
          case some t =>
              dsimp only
              have ih' := ih (retryState s t) h
              simp only [savedPages_append, savedPages_fetch, savedPages_login,
                savedPages_save, savedPages_nil, List.cons_append, List.nil_append]
              exact List.chain'_cons.mpr ⟨le_refl _, ih'⟩
      case code0 videos =>
          dsimp only
          by_cases hv : videos = []
          · simp [hv]
          · rw [if_neg hv]
            dsimp only
            have ih' := ih { sitePhase env (processPage env { s with fetchCtr := s.fetchCtr + 1 } videos).1 (processPage env { s with fetchCtr := s.fetchCtr + 1 } videos).2.1 with lastSyncedPage := s.currentPage, currentPage := s.currentPage + 1 } (Nat.le_succ _)
            simp only [savedPages_append, savedPages_fetch, savedPages_save,
              savedPages_nil, List.cons_append, List.nil_append,
              processPage_no_save]
            exact List.chain'_cons.mpr ⟨h, ih'⟩

end VideoSync

namespace VideoSync

/-- C9: within one orchestrator run, the sequence of `last_synced_page`
values written by the successive checkpoint saves is non-decreasing — the
page-completion saves write the monotonically growing current page, and the
credential-refresh saves re-write the unchanged `last_synced_page`. -/
theorem C9_checkpoint_pages_monotone (env : ScrEnv) (fuel : Nat) (L : LoadedState)
    (db0 : Finset String) :
    List.Chain' (· ≤ ·) (savedPages (runScraper env fuel (initScrState L db0)).2) := by
  have h0 : (initScrState L db0).lastSyncedPage ≤ (initScrState L db0).currentPage := by
    unfold initScrState
    dsimp only
    split <;> omega
  exact (runScraper_saves_chain env fuel _ h0).tail

end VideoSync

namespace VideoSync

theorem runScraper_protect (env : ScrEnv) :
    ∀ (fuel : Nat) (s : ScrState) (vid : String), vid ∈ s.db →
      vid ∈ (runScraper env fuel s).1.db
        ∧ Ev.detailFetch vid ∉ (runScraper env fuel s).2
        ∧ Ev.insertRec vid ∉ (runScraper env fuel s).2 := by
  intro fuel
  induction fuel with
  | zero =>
      intro s vid hdb
      exact ⟨hdb, by simp [runScraper], by simp [runScraper]⟩
  | succ fuel ih =>
      intro s vid hdb
      simp only [runScraper]
      cases henv : env.fetchPage s.fetchCtr
      case noResp => exact ⟨hdb, by simp, by simp⟩
      case codeOther => exact ⟨hdb, by simp, by simp⟩
      case code402 =>
          dsimp only
          cases hl : env.loginR s.loginCtr
          case none => exact ⟨hdb, by simp, by simp⟩
          case some t =>
              dsimp only
              have ih' := ih (retryState s t) vid hdb
              refine ⟨ih'.1, ?_, ?_⟩
              · simp only [List.cons_append, List.nil_append, List.mem_cons, not_or]
                exact ⟨by simp, by simp, by simp, ih'.2.1⟩
              · simp only [List.cons_append, List.nil_append, List.mem_cons, not_or]
                exact ⟨by simp, by simp, by simp, ih'.2.2⟩
      case code0 videos =>
          dsimp only
          by_cases hv : videos = []
          · rw [if_pos hv]
            exact ⟨hdb, by simp, by simp⟩
          · rw [if_neg hv]
            dsimp only
            have hpp := processPage_fold_protect env videos vid
              { s with fetchCtr := s.fetchCtr + 1 } [] [] hdb (by simp) (by simp)
            have hsp := (sitePhase_state env
              (processPage env { s with fetchCtr := s.fetchCtr + 1 } videos).1
              (processPage env { s with fetchCtr := s.fetchCtr + 1 } videos).2.1).1
            have hdb4 : vid ∈ ({ sitePhase env (processPage env { s with fetchCtr := s.fetchCtr + 1 } videos).1 (processPage env { s with fetchCtr := s.fetchCtr + 1 } videos).2.1 with lastSyncedPage := s.currentPage, currentPage := s.currentPage + 1 } : ScrState).db := by
              show vid ∈ (sitePhase env _ _).db
              rw [hsp]
              exact hpp.1
            have ih' := ih _ vid hdb4
            refine ⟨ih'.1, ?_, ?_⟩
            · intro hm
              rcases List.mem_append.mp hm with hm | hm
              · rcases List.mem_append.mp hm with hm | hm
                · rcases List.mem_append.mp hm with hm | hm
                  · simp at hm
                  · exact hpp.2.1 hm
                · simp at hm
              · exact ih'.2.1 hm
            · intro hm
              rcases List.mem_append.mp hm with hm | hm
              · rcases List.mem_append.mp hm with hm | hm
                · rcases List.mem_append.mp hm with hm | hm
                  · simp at hm
                  · exact hpp.2.2 hm
                · simp at hm
              · exact ih'.2.2 hm

end VideoSync

namespace VideoSync

/-- C3: the `db.video_exists` check precedes enrichment — an item whose
externalId is already in the Record Store is skipped with no detail fetch
and no insert attempt — and consequently a run started from any checkpoint
never fetches detail for, nor re-persists, an id already present in the
Record Store. -/
theorem C3_existing_ids_never_repersisted (env : ScrEnv) (fuel : Nat) (s : ScrState)
    (v : Video) (processed : List String) (vid : String)
    (hv : v.id ∈ s.db) (hvid : vid ∈ s.db) :
    processVideo env s processed v = (s, processed, [.skipExisting v.id])
      ∧ Ev.detailFetch vid ∉ (runScraper env fuel s).2
      ∧ Ev.insertRec vid ∉ (runScraper env fuel s).2 :=
  ⟨processVideo_mem env s processed v hv,
   (runScraper_protect env fuel s vid hvid).2.1,
   (runScraper_protect env fuel s vid hvid).2.2⟩

/-- A concrete benign environment for witnesses. -/
def testScrEnv : ScrEnv where
  domains := ["d1.example"]
  fetchPage := fun _ => .code0 []
  loginR := fun _ => none
  detail := fun _ => .okData
  insertOk := fun _ => true
  ossOk := fun _ => true
  dbFetchEmpty := fun _ => false
  push := fun _ _ => .ok []

/-- A concrete state whose Record Store already holds id `"A"`. -/
def testScrState : ScrState where
  currentPage := 1
  lastSyncedPage := 0
  apiToken := none
  failedSynced := []
  failedSite := fun _ => ∅
  db := {"A"}
  fetchCtr := 0
  loginCtr := 0
  syncCtr := 0

/-- Witness for C3: id `"A"` is already stored; its item is skipped and the
run performs no detail fetch for it. -/
theorem C3_existing_ids_never_repersisted_witness :
    ("A" : String) ∈ testScrState.db
      ∧ processVideo testScrEnv testScrState [] ⟨"A", "t"⟩
          = (testScrState, [], [.skipExisting "A"])
      ∧ Ev.detailFetch "A" ∉ (runScraper testScrEnv 1 testScrState).2 :=
  ⟨by decide,
   (C3_existing_ids_never_repersisted testScrEnv 1 testScrState ⟨"A", "t"⟩ [] "A"
      (by decide) (by decide)).1,
   (C3_existing_ids_never_repersisted testScrEnv 1 testScrState ⟨"A", "t"⟩ [] "A"
      (by decide) (by decide)).2.1⟩

theorem runScraper_trace_head (env : ScrEnv) (f : Nat) (s : ScrState) :
    (runScraper env (f + 1) s).2.head? = some (.fetch s.currentPage) := by
  simp only [runScraper]
  cases henv : env.fetchPage s.fetchCtr
  case noResp => rfl
  case codeOther => rfl
  case code402 =>
      dsimp only
      cases env.loginR s.loginCtr
      case none => rfl
      case some t => rfl
  case code0 videos =>
      dsimp only
      by_cases hv : videos = []
      · rw [if_pos hv]
        rfl
      · rw [if_neg hv]
        rfl

/-- C8: when a page fetch returns code 402, the orchestrator relogs in; on
success it saves the checkpoint with `last_synced_page` unchanged and
retries with the page counter unchanged (the next fetch is for the same
page); on relogin failure the run stops. -/
theorem C8_token_refresh_same_page (env : ScrEnv) (fuel : Nat) (s : ScrState) (t : String)
    (hfp : env.fetchPage s.fetchCtr = .code402) :
    (env.loginR s.loginCtr = some t →
        runScraper env (fuel + 1) s
          = ((runScraper env fuel (retryState s t)).1,
              .fetch s.currentPage :: .login true :: .save s.lastSyncedPage
                :: (runScraper env fuel (retryState s t)).2)
        ∧ (retryState s t).currentPage = s.currentPage
        ∧ (retryState s t).lastSyncedPage = s.lastSyncedPage
        ∧ (∀ f : Nat, fuel = f + 1 →
            (runScraper env fuel (retryState s t)).2.head? = some (.fetch s.currentPage)))
      ∧ (env.loginR s.loginCtr = none →
        runScraper env (fuel + 1) s
          = ({ s with fetchCtr := s.fetchCtr + 1, loginCtr := s.loginCtr + 1 },
              [.fetch s.currentPage, .login false])) := by
  constructor
  · intro hl
    refine ⟨?_, rfl, rfl, ?_⟩
    · simp only [runScraper, hfp, hl]
      rfl
    · intro f hf
      subst hf
      exact runScraper_trace_head env f (retryState s t)
  · intro hl
    simp only [runScraper, hfp, hl]

/-- An environment whose catalog always answers 402 and whose relogin
succeeds. -/
def env402 : ScrEnv where
  domains := []
  fetchPage := fun _ => .code402
  loginR := fun _ => some "tok2"
  detail := fun _ => .okData
  insertOk := fun _ => true
  ossOk := fun _ => true
  dbFetchEmpty := fun _ => false
  push := fun _ _ => .ok []

/-- Witness for C8: a 402 answer with successful relogin retries in place,
saving `last_synced_page = 0` untouched. -/
theorem C8_token_refresh_same_page_witness :
    env402.fetchPage testScrState.fetchCtr = PageResp.code402
      ∧ runScraper env402 (0 + 1) testScrState
        = ((runScraper env402 0 (retryState testScrState "tok2")).1,
            .fetch testScrState.currentPage :: .login true
              :: .save testScrState.lastSyncedPage
              :: (runScraper env402 0 (retryState testScrState "tok2")).2) :=
  ⟨rfl, ((C8_token_refresh_same_page env402 0 testScrState "tok2" rfl).1 rfl).1⟩

end VideoSync

namespace VideoSync

/-- C7: a transport error (or any exception) on the push to a domain is
treated as the domain rejecting the whole batch.  Part one: inside
`sync_videos_to_site`, an exception for a targeted domain puts every id of
the batch into that domain's returned entry.  Part two: in the page's
site-sync block, both a failure of the whole sync step (modelled: the
Record Store returned no rows for the batch) and a per-domain push
exception leave every processed id in that domain's recorded
`failed_site` entry. -/
theorem C7_transport_error_whole_batch
    (handlerDomains : List String) (push : String → PushOutcome) (videos : List Video)
    (domainArg : Option String) (d : String) (env : ScrEnv) (s : ScrState)
    (processed : List String) :
    (d ∈ targetDomains handlerDomains domainArg → push d = .exc →
        ∀ v ∈ videos, v.id ∈ sync_videos_to_site handlerDomains push videos domainArg d)
      ∧ (processed ≠ [] → d ∈ env.domains →
          (env.dbFetchEmpty s.syncCtr = true →
              ∀ vid ∈ processed, vid ∈ (sitePhase env s processed).failedSite d)
            ∧ (env.dbFetchEmpty s.syncCtr = false →
                env.push s.syncCtr d = .exc →
                ∀ vid ∈ processed, vid ∈ (sitePhase env s processed).failedSite d)) := by
  constructor
  · intro hd hpush v hv
    unfold sync_videos_to_site
    rw [if_pos hd, hpush]
    exact List.mem_toFinset.mpr (List.mem_map_of_mem _ hv)
  · intro hproc hd
    constructor
    · intro hdbe vid hvid
      unfold sitePhase
      rw [if_neg hproc, if_pos hdbe]
      dsimp only
      rw [if_pos hd]
      exact Finset.mem_union_right _ (List.mem_toFinset.mpr hvid)
    · intro hdbe hpush vid hvid
      unfold sitePhase
      rw [if_neg hproc, if_neg (by simp [hdbe])]
      dsimp only
      refine Finset.mem_union_right _ ?_
      unfold sync_videos_to_site targetDomains
      dsimp only
      rw [if_pos hd, hpush]
      refine List.mem_toFinset.mpr ?_
      simpa [List.map_map, Function.comp] using hvid

/-- An environment whose site pushes always raise and whose Record Store
read of the batch comes back empty. -/
def envSiteFail : ScrEnv where
  domains := ["d1.example"]
  fetchPage := fun _ => .code0 []
  loginR := fun _ => none
  detail := fun _ => .okData
  insertOk := fun _ => true
  ossOk := fun _ => true
  dbFetchEmpty := fun _ => true
  push := fun _ _ => .exc

/-- Witness for C7: with a failing push, id `"A"` of a one-item batch lands
in the domain's returned entry; and with the whole sync step failing, the
processed id `"A"` lands in the domain's recorded `failed_site` entry. -/
theorem C7_transport_error_whole_batch_witness :
    ("A" : String) ∈ sync_videos_to_site ["d1.example"] (fun _ => .exc)
        [⟨"A", "t"⟩] none "d1.example"
      ∧ ("A" : String) ∈ (sitePhase envSiteFail testScrState ["A"]).failedSite "d1.example" :=
  ⟨(C7_transport_error_whole_batch ["d1.example"] (fun _ => .exc) [⟨"A", "t"⟩] none
      "d1.example" envSiteFail testScrState ["A"]).1 (by decide) rfl ⟨"A", "t"⟩ (by decide),
   ((C7_transport_error_whole_batch ["d1.example"] (fun _ => .exc) [⟨"A", "t"⟩] none
      "d1.example" envSiteFail testScrState ["A"]).2 (by decide) (by decide)).1 rfl
     "A" (by decide)⟩

end VideoSync

namespace VideoSync

theorem runScraper_failedSite_mono (env : ScrEnv) :
    ∀ (fuel : Nat) (s : ScrState) (d : String),
      s.failedSite d ⊆ (runScraper env fuel s).1.failedSite d := by
  intro fuel
  induction fuel with
  | zero => intro s d; exact Finset.Subset.refl _
  | succ fuel ih =>
      intro s d
      simp only [runScraper]
      cases henv : env.fetchPage s.fetchCtr
      case noResp => exact Finset.Subset.refl _
      case codeOther => exact Finset.Subset.refl _
      case code402 =>
          dsimp only
          cases env.loginR s.loginCtr
          case none => exact Finset.Subset.refl _
          case some t => exact ih (retryState s t) d
      case code0 videos =>
          dsimp only
          by_cases hv : videos = []
          · rw [if_pos hv]
          · rw [if_neg hv]
            dsimp only
            have hpp := (processPage_fold_state env videos
              { s with fetchCtr := s.fetchCtr + 1 } [] []).2.2
            have hsp := sitePhase_failedSite_mono env
              (processPage env { s with fetchCtr := s.fetchCtr + 1 } videos).1
              (processPage env { s with fetchCtr := s.fetchCtr + 1 } videos).2.1 d
            have hrec := ih { sitePhase env (processPage env { s with fetchCtr := s.fetchCtr + 1 } videos).1 (processPage env { s with fetchCtr := s.fetchCtr + 1 } videos).2.1 with lastSyncedPage := s.currentPage, currentPage := s.currentPage + 1 } d
            exact Finset.Subset.trans ((congrFun hpp d) ▸ hsp) hrec

/-! ## The list/set mismatch on a resumed run (dynamic typing of
`failed_site` values)

`save_state` serialises `failed_site` as `{k: list(v)}`; `json.load` yields
those lists back, and `run_scraper` loads them untouched
(`state.get('failed_site', {})`).  The merge code then applies set
operations to them.  `PyVal` models this dynamic typing. -/

/-- A Python value stored under a domain in the in-memory `failed_site`
dict: a `list` (as `json.load` produces on a resumed run) or a `set` (as
built during the current run). -/
inductive PyVal
  | vList (l : List String)
  | vSet (s : Finset String)
deriving DecidableEq

/-- `failed_site[domain] |= ids` with `ids` a `set`: set union on a set
value; a `TypeError` on a `list` value (`list` supports neither `|=` nor
`|` with a `set`). -/
def pyIorSet : PyVal → Finset String → Except String PyVal
  | .vSet s, ids => .ok (.vSet (s ∪ ids))
  | .vList _, _ => .error "TypeError"

/-- Dict lookup. -/
def lookupVal (m : List (String × PyVal)) (d : String) : Option PyVal :=
  (m.find? (fun p => p.1 = d)).map (fun p => p.2)

/-- Dict assignment `m[d] = v`. -/
def setVal (m : List (String × PyVal)) (d : String) (v : PyVal) :
    List (String × PyVal) :=
  if (m.find? (fun p => p.1 = d)).isSome then
    m.map (fun p => if p.1 = d then (d, v) else p)
  else m ++ [(d, v)]

/-- src/main.py lines 226-231: merge the returned per-domain failure sets
into `failed_site`: `|=` when the domain is present, plain assignment
otherwise. -/
def mergeSyncFailures (m : List (String × PyVal)) :
    List (String × Finset String) → Except String (List (String × PyVal))
  | [] => .ok m
  | (d, ids) :: rest =>
      match lookupVal m d with
      | some v =>
          match pyIorSet v ids with
          | .ok v' => mergeSyncFailures (setVal m d v') rest
          | .error e => .error e
      | none => mergeSyncFailures (setVal m d (.vSet ids)) rest

/-- `failed_site.setdefault(domain, set()).update(processed_ids)` (lines
242-243): union into a set value, creation of a missing entry, and an
`AttributeError` on a `list` value (`list` has no `.update`). -/
def pySetdefaultUpdate (m : List (String × PyVal)) (d : String) (ids : Finset String) :
    Except String (List (String × PyVal)) :=
  match lookupVal m d with
  | some (.vSet s) => .ok (setVal m d (.vSet (s ∪ ids)))
  | some (.vList _) => .error "AttributeError"
  | none => .ok (m ++ [(d, .vSet ids)])

/-- The try/except around the page's site sync (lines 208-245) restricted
to the failure-merge: if the in-try merge raises, the except handler
records the whole batch for every configured domain with
`setdefault(...).update(...)`; an exception inside that handler
propagates out of `run_scraper` (no checkpoint is written). -/
def scraperSiteMergeDyn (domains : List String) (m : List (String × PyVal))
    (processed : Finset String) (syncResult : List (String × Finset String)) :
    Except String (List (String × PyVal)) :=
  match mergeSyncFailures m syncResult with
  | .ok m' => .ok m'
  | .error _ => domains.foldlM (fun acc d => pySetdefaultUpdate acc d processed) m

/-- `state.get('failed_site', {})` on a resumed run: the JSON lists, as
serialised by the previous run's `save_state`. -/
def loadedFailedSite (j : List (String × List String)) : List (String × PyVal) :=
  j.map (fun p => (p.1, PyVal.vList p.2))

/-- C6 evidence.  First half (the claim's first-run part, which holds): in
the in-memory set semantics, a domain's recorded failure set only ever
grows across a run — no checkpoint write drops previously recorded ids.
Second half (the resumed-run part, which the code breaks): with a
checkpoint reloaded from JSON (`failed_site = {"example.com": ["A"]}`) and
a new failure reported for that domain, the merge raises `TypeError`
(list `|=` set), and the except handler then raises `AttributeError`
(list has no `.update`), so the run crashes instead of unioning. -/
theorem C6_union_holds_first_run_crashes_on_resume :
    (∀ (env : ScrEnv) (fuel : Nat) (s : ScrState) (d : String),
        s.failedSite d ⊆ (runScraper env fuel s).1.failedSite d)
      ∧ scraperSiteMergeDyn ["example.com"]
          (loadedFailedSite [("example.com", ["A"])]) {"B"} [("example.com", {"B"})]
          = .error "AttributeError" :=
  ⟨fun env fuel s d => runScraper_failedSite_mono env fuel s d, by rfl⟩

end VideoSync
